import Mathlib

/-
  Verification development for simread (src/main.c), a reader for the
  IAR Simple Code (.sim) binary container format.

  The byte buffer of the file is modelled as a `List Nat`.  The C program
  performs no bounds checks when walking records: an access `record[i]`
  past the end of the buffer is an out-of-bounds read of indeterminate
  memory, modelled here by `rdByte` returning `0` for such indices.  All
  32-bit `unsigned int` arithmetic is carried out in `Nat` with explicit
  reduction modulo `2 ^ 32` exactly where C wraps around.
-/

set_option maxRecDepth 8000

namespace Simread

/-- The modulus of the C `unsigned int` arithmetic, 2 ^ 32. -/
def two32 : Nat := 4294967296

/-- The macro `HEADER_SIZE_BYTES` from the source. -/
def HEADER_SIZE_BYTES : Nat := 14

/-- The macro `MAX_FILE_SIZE_BYTES` from the source (1 MB). -/
def MAX_FILE_SIZE_BYTES : Nat := 1000000

/-- One byte of the in-memory buffer, as the C expressions `bf[i]` and
`record[i]`.  The program never bounds-checks these accesses; an index at
or past the end of the buffer is an out-of-bounds read whose
(indeterminate) value is modelled as `0`. -/
def rdByte (buf : List Nat) (i : Nat) : Nat := (buf[i]?).getD 0

/-- Big-endian 16-bit assembly `b[i]<<8 | b[i+1]`, as written in the source. -/
def be16at (buf : List Nat) (i : Nat) : Nat :=
  rdByte buf i <<< 8 ||| rdByte buf (i + 1)

/-- Big-endian 32-bit assembly `b[i]<<24 | b[i+1]<<16 | b[i+2]<<8 | b[i+3]`,
as written in the source. -/
def be32at (buf : List Nat) (i : Nat) : Nat :=
  rdByte buf i <<< 24 ||| rdByte buf (i + 1) <<< 16 |||
    rdByte buf (i + 2) <<< 8 ||| rdByte buf (i + 3)

/-- The header fields extracted by `DisplayHeader` (field names as in the
source). -/
structure Header where
  magic_number : Nat
  program_flags : Nat
  number_of_program_bytes : Nat
  version_information : Nat
deriving Repr, DecidableEq

/-- The function `DisplayHeader` of the source: it reads the first 14 bytes
of the file; when fewer than 14 bytes are available (`rb != HEADER_SIZE_BYTES`)
it reports "Could not read header." and fails, modelled as `none`.
Otherwise it assembles the four fields big-endian. -/
def DisplayHeader (file : List Nat) : Option Header :=
  if file.length < HEADER_SIZE_BYTES then none
  else
    some { magic_number := be32at file 0
         , program_flags := be32at file 4
         , number_of_program_bytes := be32at file 8
         , version_information := be16at file 12 }

/-- The structured description of one record, as printed by
`DisplayRecord` (tag `0x01` data, `0x02` entry, `0x03` end). -/
inductive Record where
  | data (segment_type record_flags record_start_address
      number_of_program_bytes : Nat) (payload : List Nat)
  | entry (entry_address segment_type : Nat)
  | endRec (checksum : Nat)
deriving Repr, DecidableEq

/-- The outcome of one call of `DisplayRecord`:
`emitted` is the record description printed (nothing for an unknown tag);
`shownPayload` models the "Program bytes = ..." output line of a data
record, which the global `hide_program_bytes` flag suppresses
(`[Program bytes hidden]` is printed instead, modelled as `none`);
`next` is the returned pointer to the start of the next record, `none`
standing for the null return that stops the walk. -/
structure StepOut where
  emitted : Option Record
  shownPayload : Option (List Nat)
  next : Option Nat
deriving Repr, DecidableEq

/-- The payload bytes of a data record starting at `pos`: the bytes at
indices `pos+12, ..., pos+12+cnt-1`, exactly the ones the display loop
`for(i=12; i<(12+number_of_program_bytes); i++)` visits. -/
def readPayload (buf : List Nat) (pos cnt : Nat) : List Nat :=
  (List.range cnt).map fun i => rdByte buf (pos + 12 + i)

/-- The function `DisplayRecord` of the source, acting on the record
buffer `buf` with the cursor (pointer offset) `pos`.  The single tag byte
at the cursor selects the branch:
tag `0x01` assembles segment type, flags (2 bytes BE), start address
(4 bytes BE) and byte count (4 bytes BE), prints the `byte_count` payload
bytes unless `hide` is set, and returns `record+12+byte_count`;
tag `0x02` assembles entry address (4 bytes BE) and segment type and
returns `record+6`;
tag `0x03` assembles the checksum (4 bytes BE) and returns the null
pointer (`next := none`);
any other tag falls through to `return 0` with nothing printed.
No branch checks any bound against the buffer length. -/
def DisplayRecord (hide : Bool) (buf : List Nat) (pos : Nat) : StepOut :=
  if rdByte buf pos = 1 then
    { emitted := some (Record.data (rdByte buf (pos + 1)) (be16at buf (pos + 2))
        (be32at buf (pos + 4)) (be32at buf (pos + 8))
        (readPayload buf pos (be32at buf (pos + 8))))
    , shownPayload := if hide then none
        else some (readPayload buf pos (be32at buf (pos + 8)))
    , next := some (pos + 12 + be32at buf (pos + 8)) }
  else if rdByte buf pos = 2 then
    { emitted := some (Record.entry (be32at buf (pos + 1)) (rdByte buf (pos + 5)))
    , shownPayload := none
    , next := some (pos + 6) }
  else if rdByte buf pos = 3 then
    { emitted := some (Record.endRec (be32at buf (pos + 1)))
    , shownPayload := none
    , next := none }
  else
    { emitted := none, shownPayload := none, next := none }

/-- The record-printing loop of `DisplayRecords`:
`while(nextRecord) nextRecord = DisplayRecord(nextRecord);`, collecting the
emitted records.  `fuel` bounds the number of iterations so that the model
is a total function; `none` means the fuel was exhausted before the walk
stopped. -/
def recordWalk (hide : Bool) (buf : List Nat) : Nat → Nat → Option (List Record)
  | 0, _ => none
  | fuel + 1, pos =>
    match (DisplayRecord hide buf pos).next with
    | none => some ((DisplayRecord hide buf pos).emitted.toList)
    | some p =>
      (recordWalk hide buf fuel p).map
        (fun l => (DisplayRecord hide buf pos).emitted.toList ++ l)

/-- The function `DisplayRecords` of the source: it seeks past the 14-byte
header, reads `rb` bytes into the record buffer, returns failure when
`rb` is zero, and otherwise runs the record-printing loop from the start of
that buffer. -/
def DisplayRecords (hide : Bool) (file : List Nat) (fuel : Nat) :
    Option (List Record) :=
  if (file.drop HEADER_SIZE_BYTES).length = 0 then none
  else recordWalk hide (file.drop HEADER_SIZE_BYTES) fuel 0

/-- The accumulation loop of `DisplayCalculatedChecksum`:
`checksum += fileByte` on a 32-bit unsigned accumulator, i.e. addition
modulo 2 ^ 32. -/
def sumLoop : List Nat → Nat → Nat
  | [], acc => acc
  | b :: rest, acc => sumLoop rest ((acc + b) % two32)

/-- The expression `crcPos = (unsigned int)ftell(fp) - 4` of the source:
the file length minus 4 in wrapping 32-bit unsigned arithmetic (for a file
shorter than 4 bytes the subtraction wraps around to a value close to
2 ^ 32). -/
def crcPos (file : List Nat) : Nat := (file.length + (two32 - 4)) % two32

/-- The function `DisplayCalculatedChecksum` of the source: it reads
`crcPos` bytes one at a time from the start of the file, summing them into
a wrapping 32-bit accumulator; as soon as an `fread` fails — which happens
exactly when `crcPos` exceeds the file length — it prints "Could not
calculate checksum." and fails (`none`).  Otherwise it forms the two's
complement `~checksum + 1` of the sum and reports it. -/
def DisplayCalculatedChecksum (file : List Nat) : Option Nat :=
  if crcPos file ≤ file.length then
    some ((two32 - 1 - sumLoop (file.take (crcPos file)) 0 + 1) % two32)
  else none

/-- The conversion `int size = (int)ftell(fp)` of the source: the file
length is reduced to 32 bits and read as a two's-complement signed `int`,
so a length of 2 ^ 31 or more wraps to a negative value and a length of
2 ^ 32 + k wraps to k. -/
def sizeInt (len : Nat) : Int :=
  if len % two32 < 2147483648 then ((len % two32 : Nat) : Int)
  else ((len % two32 : Nat) : Int) - ((two32 : Nat) : Int)

/-- The size check of `DisplayFileSize`: `size >= MAX_FILE_SIZE_BYTES` —
a signed comparison on the wrapped `int` size — is rejected; `true` means
the size was accepted. -/
def DisplayFileSize (size : Nat) : Bool :=
  decide (sizeInt size < (MAX_FILE_SIZE_BYTES : Int))

/-- The four stages of `main` that can fail, in the order in which `main`
runs them and short-circuits on failure. -/
inductive Stage where
  | sizeCheck
  | header
  | records
  | checksum
deriving Repr, DecidableEq

/-- The pipeline of `main` after the file is opened: the size check, then
`DisplayHeader`, then `DisplayRecords`, then `DisplayCalculatedChecksum`,
stopping at the first stage that fails. -/
def runSimread (hide : Bool) (file : List Nat) (fuel : Nat) :
    Except Stage (Header × List Record × Nat) :=
  if DisplayFileSize file.length = false then Except.error Stage.sizeCheck
  else
    match DisplayHeader file with
    | none => Except.error Stage.header
    | some h =>
      match DisplayRecords hide file fuel with
      | none => Except.error Stage.records
      | some rs =>
        match DisplayCalculatedChecksum file with
        | none => Except.error Stage.checksum
        | some c => Except.ok (h, rs, c)

/-- Well-formedness of the record stream of `buf` from position `pos`
onwards: each record lies entirely inside the buffer, and the stream
reaches an end record (tag `0x03`) after at most `fuel` records.  This is
the shape of input the specification calls a well-formed stream. -/
def wfFrom (buf : List Nat) : Nat → Nat → Bool
  | 0, _ => false
  | fuel + 1, pos =>
    if rdByte buf pos = 1 then
      decide (pos + 12 + be32at buf (pos + 8) ≤ buf.length) &&
        wfFrom buf fuel (pos + 12 + be32at buf (pos + 8))
    else if rdByte buf pos = 2 then
      decide (pos + 6 ≤ buf.length) && wfFrom buf fuel (pos + 6)
    else if rdByte buf pos = 3 then
      decide (pos + 5 ≤ buf.length)
    else false

/- Bridging lemmas between the bitwise big-endian assembly of the source
and its arithmetic reading. -/

/-- Shifting left by `k` and or-ing in a value below `2 ^ k` is the same as
multiplying by `2 ^ k` and adding. -/
lemma shiftLeft_lor_eq_add (a b k : Nat) (hb : b < 2 ^ k) :
    a <<< k ||| b = a * 2 ^ k + b := by
  rw [Nat.shiftLeft_eq, Nat.mul_comm a (2 ^ k)]
  exact (Nat.mul_add_lt_is_or hb a).symm

lemma lor8 (a b : Nat) (hb : b < 256) : a <<< 8 ||| b = a * 256 + b := by
  have h := shiftLeft_lor_eq_add a b 8 (by norm_num; omega)
  norm_num at h
  exact h

lemma lor16 (a b : Nat) (hb : b < 65536) : a <<< 16 ||| b = a * 65536 + b := by
  have h := shiftLeft_lor_eq_add a b 16 (by norm_num; omega)
  norm_num at h
  exact h

lemma lor24 (a b : Nat) (hb : b < 16777216) : a <<< 24 ||| b = a * 16777216 + b := by
  have h := shiftLeft_lor_eq_add a b 24 (by norm_num; omega)
  norm_num at h
  exact h

/-- Every byte the model reads from a buffer of bytes is below 256 (an
out-of-bounds read yields the modelled value 0). -/
lemma rdByte_lt_256 {buf : List Nat} (hb : ∀ b ∈ buf, b < 256) (i : Nat) :
    rdByte buf i < 256 := by
  unfold rdByte
  cases h : buf[i]? with
  | none => simp
  | some b =>
    obtain ⟨hlt, heq⟩ := List.getElem?_eq_some_iff.mp h
    have hmem : b ∈ buf := heq ▸ List.getElem_mem hlt
    simpa using hb b hmem

/-- Arithmetic reading of the 16-bit big-endian assembly, for byte-valued
buffers. -/
lemma be16at_eq {buf : List Nat} (hb : ∀ b ∈ buf, b < 256) (i : Nat) :
    be16at buf i = rdByte buf i * 256 + rdByte buf (i + 1) := by
  unfold be16at
  exact lor8 _ _ (rdByte_lt_256 hb (i + 1))

/-- Arithmetic reading of the 32-bit big-endian assembly, for byte-valued
buffers. -/
lemma be32at_eq {buf : List Nat} (hb : ∀ b ∈ buf, b < 256) (i : Nat) :
    be32at buf i = rdByte buf i * 16777216 + rdByte buf (i + 1) * 65536 +
      rdByte buf (i + 2) * 256 + rdByte buf (i + 3) := by
  have h1 := rdByte_lt_256 hb (i + 1)
  have h2 := rdByte_lt_256 hb (i + 2)
  have h3 := rdByte_lt_256 hb (i + 3)
  unfold be32at
  rw [Nat.lor_assoc, Nat.lor_assoc, lor8 _ _ h3,
    lor16 _ _ (by omega), lor24 _ _ (by omega)]
  omega

/- Lemmas about reads relative to the buffer end. -/

/-- Reading inside the buffer is unaffected by bytes appended past its end. -/
lemma rdByte_append {buf : List Nat} (junk : List Nat) {i : Nat}
    (h : i < buf.length) : rdByte (buf ++ junk) i = rdByte buf i := by
  unfold rdByte
  rw [List.getElem?_append_left h]

/-- Reading inside the buffer yields the byte stored there. -/
lemma rdByte_eq_getElem {buf : List Nat} {i : Nat} (h : i < buf.length) :
    rdByte buf i = buf[i] := by
  unfold rdByte
  rw [List.getElem?_eq_getElem h]
  rfl

lemma be16at_append {buf : List Nat} (junk : List Nat) {i : Nat}
    (h : i + 2 ≤ buf.length) : be16at (buf ++ junk) i = be16at buf i := by
  unfold be16at
  rw [rdByte_append junk (by omega), rdByte_append junk (by omega)]

lemma be32at_append {buf : List Nat} (junk : List Nat) {i : Nat}
    (h : i + 4 ≤ buf.length) : be32at (buf ++ junk) i = be32at buf i := by
  unfold be32at
  rw [rdByte_append junk (by omega), rdByte_append junk (by omega),
    rdByte_append junk (by omega), rdByte_append junk (by omega)]

/-- Indexing into a dropped list, shifted. -/
lemma drop_getElem? (l : List Nat) (m i : Nat) : (l.drop m)[i]? = l[m + i]? := by
  induction m generalizing l with
  | zero => simp
  | succ m ih =>
    cases l with
    | nil => simp
    | cons a t =>
      rw [List.drop_succ_cons, ih t]
      have : m + 1 + i = (m + i) + 1 := by omega
      rw [this, List.getElem?_cons_succ]

/-- A data record payload that lies inside the buffer is the corresponding
contiguous slice of the buffer. -/
lemma readPayload_eq {buf : List Nat} {pos cnt : Nat}
    (h : pos + 12 + cnt ≤ buf.length) :
    readPayload buf pos cnt = (buf.drop (pos + 12)).take cnt := by
  apply List.ext_getElem?
  intro n
  unfold readPayload
  rcases Nat.lt_or_ge n cnt with hn | hn
  · rw [List.getElem?_map, List.getElem?_range hn,
      List.getElem?_take_of_lt hn, drop_getElem?,
      List.getElem?_eq_getElem (by omega)]
    simp [rdByte_eq_getElem (show pos + 12 + n < buf.length by omega)]
  · rw [List.getElem?_eq_none (by simpa using hn),
      List.getElem?_eq_none (by simp; omega)]

/-- A data record payload that lies inside the buffer is unaffected by
bytes appended past the buffer end. -/
lemma readPayload_append {buf : List Nat} (junk : List Nat) {pos cnt : Nat}
    (h : pos + 12 + cnt ≤ buf.length) :
    readPayload (buf ++ junk) pos cnt = readPayload buf pos cnt := by
  unfold readPayload
  apply List.map_congr_left
  intro i hi
  have hi' : i < cnt := List.mem_range.mp hi
  exact rdByte_append junk (by omega)

/- Lemmas about the checksum accumulation loop. -/

lemma two32_pos : 0 < two32 := by norm_num [two32]

/-- The wrapping accumulation loop computes the plain sum modulo 2 ^ 32. -/
lemma sumLoop_eq (l : List Nat) :
    ∀ acc, acc < two32 → sumLoop l acc = (acc + l.sum) % two32 := by
  induction l with
  | nil =>
    intro acc h
    simp [sumLoop, Nat.mod_eq_of_lt h]
  | cons b t ih =>
    intro acc h
    rw [sumLoop, ih _ (Nat.mod_lt _ two32_pos), Nat.mod_add_mod, List.sum_cons]
    congr 1
    omega

/-- Reading through a dropped prefix is reading at the shifted index. -/
lemma rdByte_drop (l : List Nat) (m i : Nat) :
    rdByte (l.drop m) i = rdByte l (m + i) := by
  unfold rdByte
  rw [drop_getElem?]

/-- Every read from an all-zero buffer yields 0, inside or past the end. -/
lemma rdByte_replicate (n i : Nat) : rdByte (List.replicate n (0 : Nat)) i = 0 := by
  unfold rdByte
  rw [List.getElem?_replicate]
  split <;> rfl

/-- The wrapping accumulation loop over a list of zero bytes returns its
accumulator unchanged. -/
lemma sumLoop_all_zero (l : List Nat) (hz : ∀ b ∈ l, b = 0) :
    ∀ acc, acc < two32 → sumLoop l acc = acc := by
  induction l with
  | nil =>
    intro acc _
    rfl
  | cons b t ih =>
    intro acc h
    have hb : b = 0 := hz b (List.mem_cons_self b t)
    rw [sumLoop, hb, Nat.add_zero, Nat.mod_eq_of_lt h]
    exact ih (fun x hx => hz x (List.mem_cons_of_mem _ hx)) acc h

lemma be16at_replicate (n i : Nat) : be16at (List.replicate n (0 : Nat)) i = 0 := by
  unfold be16at
  rw [rdByte_replicate, rdByte_replicate]
  decide

lemma be32at_replicate (n i : Nat) : be32at (List.replicate n (0 : Nat)) i = 0 := by
  unfold be32at
  rw [rdByte_replicate, rdByte_replicate, rdByte_replicate, rdByte_replicate]
  decide

/-- Dropping a prefix of the left part of an appended list. -/
lemma drop_append_of_le {l1 l2 : List Nat} {n : Nat} (h : n ≤ l1.length) :
    (l1 ++ l2).drop n = l1.drop n ++ l2 := by
  induction l1 generalizing n with
  | nil =>
    have : n = 0 := by simpa using h
    simp [this]
  | cons a t ih =>
    cases n with
    | zero => simp
    | succ n =>
      simp only [List.cons_append, List.drop_succ_cons]
      exact ih (by simpa using h)

/- The four branches of `DisplayRecord`, spelled out. -/

lemma DisplayRecord_tag1 (hide : Bool) (buf : List Nat) (pos : Nat)
    (h : rdByte buf pos = 1) :
    DisplayRecord hide buf pos =
      { emitted := some (Record.data (rdByte buf (pos + 1)) (be16at buf (pos + 2))
          (be32at buf (pos + 4)) (be32at buf (pos + 8))
          (readPayload buf pos (be32at buf (pos + 8))))
      , shownPayload := if hide then none
          else some (readPayload buf pos (be32at buf (pos + 8)))
      , next := some (pos + 12 + be32at buf (pos + 8)) } := by
  unfold DisplayRecord
  rw [if_pos h]

lemma DisplayRecord_tag2 (hide : Bool) (buf : List Nat) (pos : Nat)
    (h : rdByte buf pos = 2) :
    DisplayRecord hide buf pos =
      { emitted := some (Record.entry (be32at buf (pos + 1)) (rdByte buf (pos + 5)))
      , shownPayload := none
      , next := some (pos + 6) } := by
  unfold DisplayRecord
  rw [if_neg (by simp [h]), if_pos h]

lemma DisplayRecord_tag3 (hide : Bool) (buf : List Nat) (pos : Nat)
    (h : rdByte buf pos = 3) :
    DisplayRecord hide buf pos =
      { emitted := some (Record.endRec (be32at buf (pos + 1)))
      , shownPayload := none
      , next := none } := by
  unfold DisplayRecord
  rw [if_neg (by simp [h]), if_neg (by simp [h]), if_pos h]

lemma DisplayRecord_tagOther (hide : Bool) (buf : List Nat) (pos : Nat)
    (h1 : rdByte buf pos ≠ 1) (h2 : rdByte buf pos ≠ 2)
    (h3 : rdByte buf pos ≠ 3) :
    DisplayRecord hide buf pos =
      { emitted := none, shownPayload := none, next := none } := by
  unfold DisplayRecord
  rw [if_neg h1, if_neg h2, if_neg h3]

/- One decode step of a record lying wholly inside the buffer does not
depend on any byte at or past the buffer end. -/

lemma DisplayRecord_append_tag1 (hide : Bool) {buf : List Nat} (junk : List Nat)
    {pos : Nat} (h : rdByte buf pos = 1)
    (hb : pos + 12 + be32at buf (pos + 8) ≤ buf.length) :
    DisplayRecord hide (buf ++ junk) pos = DisplayRecord hide buf pos := by
  have h8 : be32at (buf ++ junk) (pos + 8) = be32at buf (pos + 8) :=
    be32at_append junk (by omega)
  have h' : rdByte (buf ++ junk) pos = 1 := by
    rw [rdByte_append junk (by omega)]; exact h
  rw [DisplayRecord_tag1 hide _ _ h', DisplayRecord_tag1 hide _ _ h, h8,
    rdByte_append junk (by omega), be16at_append junk (by omega),
    be32at_append junk (by omega), readPayload_append junk hb]

lemma DisplayRecord_append_tag2 (hide : Bool) {buf : List Nat} (junk : List Nat)
    {pos : Nat} (h : rdByte buf pos = 2) (hb : pos + 6 ≤ buf.length) :
    DisplayRecord hide (buf ++ junk) pos = DisplayRecord hide buf pos := by
  have h' : rdByte (buf ++ junk) pos = 2 := by
    rw [rdByte_append junk (by omega)]; exact h
  rw [DisplayRecord_tag2 hide _ _ h', DisplayRecord_tag2 hide _ _ h,
    be32at_append junk (by omega), rdByte_append junk (by omega)]

lemma DisplayRecord_append_tag3 (hide : Bool) {buf : List Nat} (junk : List Nat)
    {pos : Nat} (h : rdByte buf pos = 3) (hb : pos + 5 ≤ buf.length) :
    DisplayRecord hide (buf ++ junk) pos = DisplayRecord hide buf pos := by
  have h' : rdByte (buf ++ junk) pos = 3 := by
    rw [rdByte_append junk (by omega)]; exact h
  rw [DisplayRecord_tag3 hide _ _ h', DisplayRecord_tag3 hide _ _ h,
    be32at_append junk (by omega)]

/-- One unfolding of the record-printing loop. -/
lemma recordWalk_succ (hide : Bool) (buf : List Nat) (fuel pos : Nat) :
    recordWalk hide buf (fuel + 1) pos =
      match (DisplayRecord hide buf pos).next with
      | none => some ((DisplayRecord hide buf pos).emitted.toList)
      | some p =>
        (recordWalk hide buf fuel p).map
          (fun l => (DisplayRecord hide buf pos).emitted.toList ++ l) := rfl

/-- On a well-formed record stream the walk of the source terminates, its
final emitted record is the end record, and — because every record lies
inside the buffer — the outcome is unchanged by arbitrary bytes appended
past the buffer end (so no byte at or past the end influences it). -/
lemma recordWalk_wf (hide : Bool) (buf : List Nat) :
    ∀ fuel pos, wfFrom buf fuel pos = true →
      ∃ pre c,
        recordWalk hide buf fuel pos = some (pre ++ [Record.endRec c]) ∧
        ∀ junk, recordWalk hide (buf ++ junk) fuel pos =
          some (pre ++ [Record.endRec c]) := by
  intro fuel
  induction fuel with
  | zero =>
    intro pos hwf
    simp [wfFrom] at hwf
  | succ fuel ih =>
    intro pos hwf
    rw [wfFrom] at hwf
    by_cases h1 : rdByte buf pos = 1
    · rw [if_pos h1] at hwf
      simp only [Bool.and_eq_true, decide_eq_true_eq] at hwf
      obtain ⟨hb, hrec⟩ := hwf
      obtain ⟨pre, c, hwalk, hjunk⟩ := ih _ hrec
      refine ⟨Record.data (rdByte buf (pos + 1)) (be16at buf (pos + 2))
          (be32at buf (pos + 4)) (be32at buf (pos + 8))
          (readPayload buf pos (be32at buf (pos + 8))) :: pre, c, ?_, ?_⟩
      · rw [recordWalk_succ, DisplayRecord_tag1 hide _ _ h1]
        simp [hwalk]
      · intro junk
        rw [recordWalk_succ, DisplayRecord_append_tag1 hide junk h1 hb,
          DisplayRecord_tag1 hide _ _ h1]
        simp [hjunk junk]
    · by_cases h2 : rdByte buf pos = 2
      · rw [if_neg h1, if_pos h2] at hwf
        simp only [Bool.and_eq_true, decide_eq_true_eq] at hwf
        obtain ⟨hb, hrec⟩ := hwf
        obtain ⟨pre, c, hwalk, hjunk⟩ := ih _ hrec
        refine ⟨Record.entry (be32at buf (pos + 1)) (rdByte buf (pos + 5)) :: pre,
          c, ?_, ?_⟩
        · rw [recordWalk_succ, DisplayRecord_tag2 hide _ _ h2]
          simp [hwalk]
        · intro junk
          rw [recordWalk_succ, DisplayRecord_append_tag2 hide junk h2 hb,
            DisplayRecord_tag2 hide _ _ h2]
          simp [hjunk junk]
      · by_cases h3 : rdByte buf pos = 3
        · rw [if_neg h1, if_neg h2, if_pos h3] at hwf
          simp only [decide_eq_true_eq] at hwf
          refine ⟨[], be32at buf (pos + 1), ?_, ?_⟩
          · rw [recordWalk_succ, DisplayRecord_tag3 hide _ _ h3]
            simp
          · intro junk
            rw [recordWalk_succ, DisplayRecord_append_tag3 hide junk h3 hwf,
              DisplayRecord_tag3 hide _ _ h3]
            simp
        · rw [if_neg h1, if_neg h2, if_neg h3] at hwf
          simp at hwf

/- The checksum computation, in closed form. -/

lemma crcPos_eq {file : List Nat} (h4 : 4 ≤ file.length)
    (h32 : file.length < two32) : crcPos file = file.length - 4 := by
  unfold crcPos
  unfold two32 at *
  omega

/-- In closed form: for a file of at least 4 bytes the checksum stage
succeeds and reports the two's complement `~sum + 1` (modulo 2 ^ 32) of
the plain sum of all bytes except the final 4. -/
lemma calcChecksum_spec (file : List Nat) (h4 : 4 ≤ file.length)
    (h32 : file.length < two32) :
    DisplayCalculatedChecksum file =
      some ((two32 - 1 - (file.take (file.length - 4)).sum % two32 + 1) % two32) := by
  unfold DisplayCalculatedChecksum
  rw [crcPos_eq h4 h32, if_pos (by omega), sumLoop_eq _ 0 two32_pos]
  norm_num

/- Sanity check on the worked example of the specification: header
`00 00 00 01 / 00 00 00 00 / 00 00 00 04 / 01 00`, one data record with
payload `DE AD BE EF`, one end record with checksum `0`. -/

example :
    DisplayHeader [0, 0, 0, 1, 0, 0, 0, 0, 0, 0, 0, 4, 1, 0] =
      some { magic_number := 1, program_flags := 0,
             number_of_program_bytes := 4, version_information := 256 } := by
  decide

example :
    recordWalk false
      [1, 0, 0, 0, 0, 0, 0, 0, 0, 0, 0, 4, 222, 173, 190, 239, 3, 0, 0, 0, 0]
      5 0 =
    some [Record.data 0 0 0 4 [222, 173, 190, 239], Record.endRec 0] := by
  decide

example :
    wfFrom [1, 0, 0, 0, 0, 0, 0, 0, 0, 0, 0, 4, 222, 173, 190, 239, 3, 0, 0, 0, 0]
      5 0 = true := by
  decide

/-- Claim C3: for every file of length at least 4 (and of a length
representable in the 32-bit arithmetic the program uses), the calculated
checksum equals the two's complement negation, modulo 2 ^ 32, of the sum
of all bytes from offset 0 up to file_length - 4 exclusive, each byte
added into a 32-bit accumulator with wraparound: calculated =
(~sum + 1) mod 2 ^ 32. -/
theorem C3_checksum_formula (file : List Nat) (h4 : 4 ≤ file.length)
    (h32 : file.length < two32) :
    DisplayCalculatedChecksum file =
      some ((two32 - 1 - (file.take (file.length - 4)).sum % two32 + 1) % two32) :=
  calcChecksum_spec file h4 h32

/-- Witness for C3 on the concrete file 01 02 03 04 05: the sum of the
bytes before the final 4 is 1 and the reported checksum is its two's
complement 0xFFFFFFFF. -/
theorem C3_checksum_formula_witness :
    4 ≤ ([1, 2, 3, 4, 5] : List Nat).length ∧
    ([1, 2, 3, 4, 5] : List Nat).length < two32 ∧
    DisplayCalculatedChecksum [1, 2, 3, 4, 5] =
      some ((two32 - 1 -
        (([1, 2, 3, 4, 5] : List Nat).take (([1, 2, 3, 4, 5] : List Nat).length - 4)).sum
          % two32 + 1) % two32) :=
  ⟨by decide, by decide, C3_checksum_formula [1, 2, 3, 4, 5] (by decide) (by decide)⟩

/-- Claim C8: for every file shorter than 4 bytes the checksum stage fails
(the wrapped computation of the checksum position makes the read loop run
off the end of the file, the failed read aborts the stage) and no
calculated checksum value is produced. -/
theorem C8_file_too_short (file : List Nat) (h : file.length < 4) :
    DisplayCalculatedChecksum file = none := by
  unfold DisplayCalculatedChecksum
  rw [if_neg (by simp only [crcPos, two32]; omega)]

/-- Witness for C8 on the concrete 3-byte file 01 02 03. -/
theorem C8_file_too_short_witness :
    ([1, 2, 3] : List Nat).length < 4 ∧
    DisplayCalculatedChecksum [1, 2, 3] = none :=
  ⟨by decide, C8_file_too_short [1, 2, 3] (by decide)⟩

/-- Claim C9: for every byte sequence of length at least 4 (of 32-bit
representable length), adding the calculated checksum to the sum of the
bytes it was computed over yields 0 modulo 2 ^ 32 — the full-sum-to-zero
invariant of the checksum scheme. -/
theorem C9_full_sum_zero (file : List Nat) (c : Nat) (h4 : 4 ≤ file.length)
    (h32 : file.length < two32)
    (hc : DisplayCalculatedChecksum file = some c) :
    (c + (file.take (file.length - 4)).sum) % two32 = 0 := by
  rw [calcChecksum_spec file h4 h32] at hc
  have hceq := Option.some.inj hc
  rw [← hceq]
  simp only [two32]
  omega

/-- Witness for C9 on the concrete file 02 03 04 05 06 07: the checksum
0xFFFFFFFB plus the byte sum 5 is 2 ^ 32. -/
theorem C9_full_sum_zero_witness :
    4 ≤ ([2, 3, 4, 5, 6, 7] : List Nat).length ∧
    ([2, 3, 4, 5, 6, 7] : List Nat).length < two32 ∧
    DisplayCalculatedChecksum [2, 3, 4, 5, 6, 7] = some 4294967291 ∧
    (4294967291 +
      (([2, 3, 4, 5, 6, 7] : List Nat).take
        (([2, 3, 4, 5, 6, 7] : List Nat).length - 4)).sum) % two32 = 0 :=
  ⟨by decide, by decide, by decide,
    C9_full_sum_zero [2, 3, 4, 5, 6, 7] 4294967291 (by decide) (by decide) (by decide)⟩

/-- Claim C5: for every byte buffer of at least 14 bytes, the header
decoder produces a Header whose fields are big-endian integers assembled
from consecutive bytes: magic_number from bytes 0-3, program_flags from
bytes 4-7, program_byte_count from bytes 8-11 and version from bytes
12-13. -/
theorem C5_header_decode (file : List Nat) (hbytes : ∀ b ∈ file, b < 256)
    (hlen : 14 ≤ file.length) :
    DisplayHeader file =
      some { magic_number := rdByte file 0 * 16777216 + rdByte file 1 * 65536 +
               rdByte file 2 * 256 + rdByte file 3
           , program_flags := rdByte file 4 * 16777216 + rdByte file 5 * 65536 +
               rdByte file 6 * 256 + rdByte file 7
           , number_of_program_bytes := rdByte file 8 * 16777216 +
               rdByte file 9 * 65536 + rdByte file 10 * 256 + rdByte file 11
           , version_information := rdByte file 12 * 256 + rdByte file 13 } := by
  unfold DisplayHeader
  rw [if_neg (by simp only [HEADER_SIZE_BYTES]; omega),
    be32at_eq hbytes, be32at_eq hbytes, be32at_eq hbytes, be16at_eq hbytes]

/-- Witness for C5 on the header of the worked example of the
specification. -/
theorem C5_header_decode_witness :
    (∀ b ∈ ([0, 0, 0, 1, 0, 0, 0, 0, 0, 0, 0, 4, 1, 0] : List Nat), b < 256) ∧
    14 ≤ ([0, 0, 0, 1, 0, 0, 0, 0, 0, 0, 0, 4, 1, 0] : List Nat).length ∧
    DisplayHeader [0, 0, 0, 1, 0, 0, 0, 0, 0, 0, 0, 4, 1, 0] =
      some { magic_number := rdByte [0, 0, 0, 1, 0, 0, 0, 0, 0, 0, 0, 4, 1, 0] 0 * 16777216 +
               rdByte [0, 0, 0, 1, 0, 0, 0, 0, 0, 0, 0, 4, 1, 0] 1 * 65536 +
               rdByte [0, 0, 0, 1, 0, 0, 0, 0, 0, 0, 0, 4, 1, 0] 2 * 256 +
               rdByte [0, 0, 0, 1, 0, 0, 0, 0, 0, 0, 0, 4, 1, 0] 3
           , program_flags := rdByte [0, 0, 0, 1, 0, 0, 0, 0, 0, 0, 0, 4, 1, 0] 4 * 16777216 +
               rdByte [0, 0, 0, 1, 0, 0, 0, 0, 0, 0, 0, 4, 1, 0] 5 * 65536 +
               rdByte [0, 0, 0, 1, 0, 0, 0, 0, 0, 0, 0, 4, 1, 0] 6 * 256 +
               rdByte [0, 0, 0, 1, 0, 0, 0, 0, 0, 0, 0, 4, 1, 0] 7
           , number_of_program_bytes := rdByte [0, 0, 0, 1, 0, 0, 0, 0, 0, 0, 0, 4, 1, 0] 8 * 16777216 +
               rdByte [0, 0, 0, 1, 0, 0, 0, 0, 0, 0, 0, 4, 1, 0] 9 * 65536 +
               rdByte [0, 0, 0, 1, 0, 0, 0, 0, 0, 0, 0, 4, 1, 0] 10 * 256 +
               rdByte [0, 0, 0, 1, 0, 0, 0, 0, 0, 0, 0, 4, 1, 0] 11
           , version_information := rdByte [0, 0, 0, 1, 0, 0, 0, 0, 0, 0, 0, 4, 1, 0] 12 * 256 +
               rdByte [0, 0, 0, 1, 0, 0, 0, 0, 0, 0, 0, 4, 1, 0] 13 } :=
  ⟨by decide, by decide,
    C5_header_decode [0, 0, 0, 1, 0, 0, 0, 0, 0, 0, 0, 4, 1, 0] (by decide) (by decide)⟩

/-- Claim C4: at every step of the record stream decoder the one tag byte
at the cursor determines the advance: tag 0x01 reads segment_type
(1 byte), flags (2 bytes BE), start_address (4 bytes BE), byte_count
(4 bytes BE), then byte_count payload bytes, and advances the cursor by
12 + byte_count emitting a data record; tag 0x02 reads entry_address
(4 bytes BE) and segment_type (1 byte) and advances by 6 emitting an
entry record; tag 0x03 reads checksum (4 bytes BE), emits an end record
and terminates the walk (`next := none`) — among the defined record kinds
the sole normal termination. -/
theorem C4_step_behavior (hide : Bool) (buf : List Nat) (pos : Nat)
    (hbytes : ∀ b ∈ buf, b < 256) :
    (∀ cnt, rdByte buf pos = 1 →
      cnt = rdByte buf (pos + 8) * 16777216 + rdByte buf (pos + 9) * 65536 +
        rdByte buf (pos + 10) * 256 + rdByte buf (pos + 11) →
      pos + 12 + cnt ≤ buf.length →
      DisplayRecord hide buf pos =
        { emitted := some (Record.data (rdByte buf (pos + 1))
            (rdByte buf (pos + 2) * 256 + rdByte buf (pos + 3))
            (rdByte buf (pos + 4) * 16777216 + rdByte buf (pos + 5) * 65536 +
              rdByte buf (pos + 6) * 256 + rdByte buf (pos + 7))
            cnt ((buf.drop (pos + 12)).take cnt))
        , shownPayload := if hide then none
            else some ((buf.drop (pos + 12)).take cnt)
        , next := some (pos + 12 + cnt) }) ∧
    (rdByte buf pos = 2 →
      DisplayRecord hide buf pos =
        { emitted := some (Record.entry
            (rdByte buf (pos + 1) * 16777216 + rdByte buf (pos + 2) * 65536 +
              rdByte buf (pos + 3) * 256 + rdByte buf (pos + 4))
            (rdByte buf (pos + 5)))
        , shownPayload := none
        , next := some (pos + 6) }) ∧
    (rdByte buf pos = 3 →
      DisplayRecord hide buf pos =
        { emitted := some (Record.endRec
            (rdByte buf (pos + 1) * 16777216 + rdByte buf (pos + 2) * 65536 +
              rdByte buf (pos + 3) * 256 + rdByte buf (pos + 4)))
        , shownPayload := none
        , next := none }) := by
  refine ⟨?_, ?_, ?_⟩
  · intro cnt h1 hcnt hb
    have hc : be32at buf (pos + 8) = cnt := by
      have h := be32at_eq hbytes (pos + 8)
      rw [show pos + 8 + 1 = pos + 9 from by omega,
        show pos + 8 + 2 = pos + 10 from by omega,
        show pos + 8 + 3 = pos + 11 from by omega] at h
      omega
    rw [DisplayRecord_tag1 hide _ _ h1, hc, readPayload_eq hb,
      be16at_eq hbytes, be32at_eq hbytes]
  · intro h2
    rw [DisplayRecord_tag2 hide _ _ h2, be32at_eq hbytes]
  · intro h3
    rw [DisplayRecord_tag3 hide _ _ h3, be32at_eq hbytes]

/-- Witness for C4 on a concrete in-bounds data record: tag 01, segment 05,
flags 0x0007, start address 9, byte count 2 and payload 0A 0B. -/
theorem C4_step_behavior_witness :
    (∀ b ∈ ([1, 5, 0, 7, 0, 0, 0, 9, 0, 0, 0, 2, 10, 11] : List Nat), b < 256) ∧
    ((∀ cnt, rdByte [1, 5, 0, 7, 0, 0, 0, 9, 0, 0, 0, 2, 10, 11] 0 = 1 →
      cnt = rdByte [1, 5, 0, 7, 0, 0, 0, 9, 0, 0, 0, 2, 10, 11] (0 + 8) * 16777216 +
        rdByte [1, 5, 0, 7, 0, 0, 0, 9, 0, 0, 0, 2, 10, 11] (0 + 9) * 65536 +
        rdByte [1, 5, 0, 7, 0, 0, 0, 9, 0, 0, 0, 2, 10, 11] (0 + 10) * 256 +
        rdByte [1, 5, 0, 7, 0, 0, 0, 9, 0, 0, 0, 2, 10, 11] (0 + 11) →
      0 + 12 + cnt ≤ ([1, 5, 0, 7, 0, 0, 0, 9, 0, 0, 0, 2, 10, 11] : List Nat).length →
      DisplayRecord false [1, 5, 0, 7, 0, 0, 0, 9, 0, 0, 0, 2, 10, 11] 0 =
        { emitted := some (Record.data
            (rdByte [1, 5, 0, 7, 0, 0, 0, 9, 0, 0, 0, 2, 10, 11] (0 + 1))
            (rdByte [1, 5, 0, 7, 0, 0, 0, 9, 0, 0, 0, 2, 10, 11] (0 + 2) * 256 +
              rdByte [1, 5, 0, 7, 0, 0, 0, 9, 0, 0, 0, 2, 10, 11] (0 + 3))
            (rdByte [1, 5, 0, 7, 0, 0, 0, 9, 0, 0, 0, 2, 10, 11] (0 + 4) * 16777216 +
              rdByte [1, 5, 0, 7, 0, 0, 0, 9, 0, 0, 0, 2, 10, 11] (0 + 5) * 65536 +
              rdByte [1, 5, 0, 7, 0, 0, 0, 9, 0, 0, 0, 2, 10, 11] (0 + 6) * 256 +
              rdByte [1, 5, 0, 7, 0, 0, 0, 9, 0, 0, 0, 2, 10, 11] (0 + 7))
            cnt ((([1, 5, 0, 7, 0, 0, 0, 9, 0, 0, 0, 2, 10, 11] : List Nat).drop (0 + 12)).take cnt))
        , shownPayload := if false then none
            else some ((([1, 5, 0, 7, 0, 0, 0, 9, 0, 0, 0, 2, 10, 11] : List Nat).drop (0 + 12)).take cnt)
        , next := some (0 + 12 + cnt) }) ∧
    (rdByte [1, 5, 0, 7, 0, 0, 0, 9, 0, 0, 0, 2, 10, 11] 0 = 2 →
      DisplayRecord false [1, 5, 0, 7, 0, 0, 0, 9, 0, 0, 0, 2, 10, 11] 0 =
        { emitted := some (Record.entry
            (rdByte [1, 5, 0, 7, 0, 0, 0, 9, 0, 0, 0, 2, 10, 11] (0 + 1) * 16777216 +
              rdByte [1, 5, 0, 7, 0, 0, 0, 9, 0, 0, 0, 2, 10, 11] (0 + 2) * 65536 +
              rdByte [1, 5, 0, 7, 0, 0, 0, 9, 0, 0, 0, 2, 10, 11] (0 + 3) * 256 +
              rdByte [1, 5, 0, 7, 0, 0, 0, 9, 0, 0, 0, 2, 10, 11] (0 + 4))
            (rdByte [1, 5, 0, 7, 0, 0, 0, 9, 0, 0, 0, 2, 10, 11] (0 + 5)))
        , shownPayload := none
        , next := some (0 + 6) }) ∧
    (rdByte [1, 5, 0, 7, 0, 0, 0, 9, 0, 0, 0, 2, 10, 11] 0 = 3 →
      DisplayRecord false [1, 5, 0, 7, 0, 0, 0, 9, 0, 0, 0, 2, 10, 11] 0 =
        { emitted := some (Record.endRec
            (rdByte [1, 5, 0, 7, 0, 0, 0, 9, 0, 0, 0, 2, 10, 11] (0 + 1) * 16777216 +
              rdByte [1, 5, 0, 7, 0, 0, 0, 9, 0, 0, 0, 2, 10, 11] (0 + 2) * 65536 +
              rdByte [1, 5, 0, 7, 0, 0, 0, 9, 0, 0, 0, 2, 10, 11] (0 + 3) * 256 +
              rdByte [1, 5, 0, 7, 0, 0, 0, 9, 0, 0, 0, 2, 10, 11] (0 + 4)))
        , shownPayload := none
        , next := none })) :=
  ⟨by decide,
    C4_step_behavior false [1, 5, 0, 7, 0, 0, 0, 9, 0, 0, 0, 2, 10, 11] 0 (by decide)⟩

/-- Claim C6: for every file of length at least 18 containing a
well-formed record stream after the 14-byte header, decoding terminates,
terminates on the end record, and never reads any byte at or past the
declared buffer length — stated as: the decode succeeds, its final record
is the end record, and the result is unchanged by arbitrary bytes
appended past the end of the file (no byte at or past the buffer length
influences it). -/
theorem C6_wellformed_terminates (hide : Bool) (file : List Nat) (fuel : Nat)
    (hlen : 18 ≤ file.length)
    (hwf : wfFrom (file.drop 14) fuel 0 = true) :
    ∃ pre c,
      DisplayRecords hide file fuel = some (pre ++ [Record.endRec c]) ∧
      ∀ junk, DisplayRecords hide (file ++ junk) fuel =
        some (pre ++ [Record.endRec c]) := by
  obtain ⟨pre, c, hwalk, hjunk⟩ := recordWalk_wf hide (file.drop 14) fuel 0 hwf
  refine ⟨pre, c, ?_, ?_⟩
  · unfold DisplayRecords
    rw [if_neg (by simp only [HEADER_SIZE_BYTES, List.length_drop]; omega)]
    simpa only [HEADER_SIZE_BYTES] using hwalk
  · intro junk
    unfold DisplayRecords
    rw [if_neg (by simp only [HEADER_SIZE_BYTES, List.length_drop,
      List.length_append]; omega)]
    simp only [HEADER_SIZE_BYTES]
    rw [drop_append_of_le (by omega)]
    exact hjunk junk

/-- Witness for C6 on the worked example of the specification: header,
one data record DE AD BE EF, one end record. -/
theorem C6_wellformed_terminates_witness :
    18 ≤ ([0, 0, 0, 1, 0, 0, 0, 0, 0, 0, 0, 4, 1, 0,
           1, 0, 0, 0, 0, 0, 0, 0, 0, 0, 0, 4, 222, 173, 190, 239,
           3, 0, 0, 0, 0] : List Nat).length ∧
    wfFrom (([0, 0, 0, 1, 0, 0, 0, 0, 0, 0, 0, 4, 1, 0,
           1, 0, 0, 0, 0, 0, 0, 0, 0, 0, 0, 4, 222, 173, 190, 239,
           3, 0, 0, 0, 0] : List Nat).drop 14) 5 0 = true ∧
    ∃ pre c,
      DisplayRecords false [0, 0, 0, 1, 0, 0, 0, 0, 0, 0, 0, 4, 1, 0,
           1, 0, 0, 0, 0, 0, 0, 0, 0, 0, 0, 4, 222, 173, 190, 239,
           3, 0, 0, 0, 0] 5 = some (pre ++ [Record.endRec c]) ∧
      ∀ junk, DisplayRecords false ([0, 0, 0, 1, 0, 0, 0, 0, 0, 0, 0, 4, 1, 0,
           1, 0, 0, 0, 0, 0, 0, 0, 0, 0, 0, 4, 222, 173, 190, 239,
           3, 0, 0, 0, 0] ++ junk) 5 = some (pre ++ [Record.endRec c]) :=
  ⟨by decide, by decide,
    C6_wellformed_terminates false _ 5 (by decide) (by decide)⟩

/-- A file of `n` zero bytes whose (wrapped) size passes the size check is
accepted and every stage of the program runs to completion: the header
decodes to all-zero fields, the record walk stops at the zero tag byte
with an empty record list, and the checksum stage reports 0. -/
lemma runSimread_allzero (n fuel : Nat) (hn : 18 ≤ n) (h32 : n < two32)
    (hsz : DisplayFileSize n = true) :
    runSimread false (List.replicate n (0 : Nat)) (fuel + 1) =
      Except.ok (Header.mk 0 0 0 0, [], 0) := by
  have hhead : DisplayHeader (List.replicate n (0 : Nat)) =
      some (Header.mk 0 0 0 0) := by
    unfold DisplayHeader
    rw [if_neg (by rw [List.length_replicate]; simp only [HEADER_SIZE_BYTES]; omega),
      be32at_replicate, be32at_replicate, be32at_replicate, be16at_replicate]
  have hrec : DisplayRecords false (List.replicate n (0 : Nat)) (fuel + 1) =
      some [] := by
    unfold DisplayRecords
    rw [if_neg (by simp only [List.length_drop, List.length_replicate,
      HEADER_SIZE_BYTES]; omega)]
    rw [recordWalk_succ, DisplayRecord_tagOther false _ 0
      (by rw [rdByte_drop, rdByte_replicate]; decide)
      (by rw [rdByte_drop, rdByte_replicate]; decide)
      (by rw [rdByte_drop, rdByte_replicate]; decide)]
    rfl
  have hcrc : crcPos (List.replicate n (0 : Nat)) = n - 4 := by
    unfold crcPos
    rw [List.length_replicate]
    simp only [two32] at *
    omega
  have hcs : DisplayCalculatedChecksum (List.replicate n (0 : Nat)) =
      some 0 := by
    unfold DisplayCalculatedChecksum
    rw [hcrc, if_pos (by rw [List.length_replicate]; omega)]
    have hz : ∀ b ∈ (List.replicate n (0 : Nat)).take (n - 4), b = 0 := by
      intro b hb
      exact List.eq_of_mem_replicate (List.mem_of_mem_take hb)
    rw [sumLoop_all_zero _ hz 0 two32_pos]
    simp only [two32]
  unfold runSimread
  rw [if_neg (by rw [List.length_replicate, hsz]; simp), hhead, hrec, hcs]

/-- Claim C7 as frozen is false of the code: the source stores the file
length as `int size = (int)ftell(fp)`, and the long-to-int conversion
wraps.  For a file of 2 ^ 31 zero bytes the wrapped size is -2 ^ 31, the
check `size >= MAX_FILE_SIZE_BYTES` is false, and the program accepts the
file and runs every decode stage to completion instead of rejecting it
with the size-limit error before any decode. -/
theorem C7_size_wrap_counterexample :
    MAX_FILE_SIZE_BYTES ≤ (List.replicate 2147483648 (0 : Nat)).length ∧
    runSimread false (List.replicate 2147483648 (0 : Nat)) 1 =
      Except.ok (Header.mk 0 0 0 0, [], 0) :=
  ⟨by rw [List.length_replicate]; decide,
    runSimread_allzero 2147483648 0 (by decide) (by decide) (by decide)⟩

/-- Claim C7, amended no further than the wrap forces: every input file
whose size is at or above the maximum accepted size (1,000,000 bytes) and
below 2 ^ 31 — so that the long-to-int conversion of the size leaves it
unchanged — is rejected with the size-limit error before any decode stage
runs; no partial decode is produced.  (Files of 2 ^ 31 bytes or more
defeat the check, as the counterexample shows.) -/
theorem C7_size_limit (hide : Bool) (file : List Nat) (fuel : Nat)
    (hmax : MAX_FILE_SIZE_BYTES ≤ file.length)
    (h31 : file.length < 2147483648) :
    runSimread hide file fuel = Except.error Stage.sizeCheck := by
  have hc : DisplayFileSize file.length = false := by
    have hmod : file.length % two32 = file.length :=
      Nat.mod_eq_of_lt (by simp only [two32]; omega)
    unfold DisplayFileSize sizeInt
    rw [hmod, if_pos h31]
    simp only [decide_eq_false_iff_not, Int.not_lt]
    exact_mod_cast hmax
  unfold runSimread
  rw [if_pos hc]

/-- Witness for the amended C7 on a file of exactly 1,000,000 zero bytes. -/
theorem C7_size_limit_witness :
    MAX_FILE_SIZE_BYTES ≤ (List.replicate 1000000 0).length ∧
    (List.replicate 1000000 0).length < 2147483648 ∧
    runSimread false (List.replicate 1000000 0) 1 = Except.error Stage.sizeCheck :=
  ⟨by rw [List.length_replicate]; decide,
    by rw [List.length_replicate]; decide,
    C7_size_limit false (List.replicate 1000000 0) 1
      (by rw [List.length_replicate]; decide)
      (by rw [List.length_replicate]; decide)⟩

/-- Claim C10: the payload-visibility flag (`hide_program_bytes`) does not
influence the decoded record or the returned next-record cursor of one
decode step; it only changes what is rendered.  Two runs of the same step
with the flag set and cleared agree on both decode-level outputs. -/
theorem C10_hide_flag_noninterference (buf : List Nat) (pos : Nat)
    (h1 h2 : Bool) :
    (DisplayRecord h1 buf pos).emitted = (DisplayRecord h2 buf pos).emitted ∧
    (DisplayRecord h1 buf pos).next = (DisplayRecord h2 buf pos).next := by
  unfold DisplayRecord
  split_ifs <;> simp

/-- Claim C1 is a bug of the code: on a data record whose declared
byte_count (4) exceeds the bytes remaining in the buffer (2), the decoder
reads past the buffer end instead of failing.  At the concrete truncated
input below, `DisplayRecord` emits a data record whose last two payload
bytes are fabricated out-of-bounds reads, returns a next-record pointer
two bytes past the 14-byte buffer, and the whole walk reports a completed
record list with no truncation error of any kind. -/
theorem C1_truncation_code_divergence :
    ([1, 0, 0, 0, 0, 0, 0, 0, 0, 0, 0, 4, 222, 173] : List Nat).length = 14 ∧
    (DisplayRecord false [1, 0, 0, 0, 0, 0, 0, 0, 0, 0, 0, 4, 222, 173] 0).next =
      some 16 ∧
    recordWalk false [1, 0, 0, 0, 0, 0, 0, 0, 0, 0, 0, 4, 222, 173] 2 0 =
      some [Record.data 0 0 0 4 [222, 173, 0, 0]] := by
  decide

/-- Claim C2 is a bug of the code: at a record whose tag byte is 0x07 the
decoder does not fail with any unknown-tag error; `DisplayRecord` falls
through to the same null return that signals normal end of stream, and
the walk silently reports the records seen so far (here none) as a
complete result — both at the record level and through `DisplayRecords`
on a whole file. -/
theorem C2_unknown_tag_code_divergence :
    (DisplayRecord false [7, 1, 2, 3] 0).emitted = none ∧
    (DisplayRecord false [7, 1, 2, 3] 0).next = none ∧
    recordWalk false [7, 1, 2, 3] 5 0 = some [] ∧
    DisplayRecords false (List.replicate 14 0 ++ [7, 1, 2, 3]) 5 = some [] := by
  decide

end Simread
